import Mathlib

/-!
Verification of the oracle-cron synchronization route (src/app/api/run/route.js
and its near-duplicate variants).  The JavaScript pipeline is shallowly embedded:
strings are Lean `String`s processed character-wise, JavaScript numbers are
modelled exactly as unnormalized fractions (`JsNum`, an integer numerator over an
integer denominator, denoting the rational `JsNum.val`), `BigInt` values as
`Int`, fallible operations as `Except`/`Option`, and the effectful oracle/HTTP
environment as explicit records of call outcomes.
-/

namespace OracleCron

/-- A JavaScript number arising in this pipeline, kept as an exact unnormalized
fraction `n / d` so that every pipeline computation is kernel-executable.  All
numbers the route manipulates are exact decimals, so this representation is
faithful; its rational meaning is `JsNum.val`. -/
structure JsNum where
  n : Int
  d : Int
deriving DecidableEq

/-- The rational value denoted by a `JsNum`. -/
def JsNum.val (r : JsNum) : ℚ :=
  (r.n : ℚ) / (r.d : ℚ)

/-- Multiply a `JsNum` by an integer. -/
def JsNum.mulInt (r : JsNum) (k : Int) : JsNum :=
  ⟨r.n * k, r.d⟩

/-- Divide a `JsNum` by an integer. -/
def JsNum.divInt (r : JsNum) (k : Int) : JsNum :=
  ⟨r.n, r.d * k⟩

/-- JavaScript division `1 / r` (used by the FX phase). -/
def JsNum.recip (r : JsNum) : JsNum :=
  ⟨r.d, r.n⟩

/-- Sign test `0 < r` on the denoted value, as a Boolean. -/
def JsNum.isPos (r : JsNum) : Bool :=
  0 < r.n * r.d

/-- JavaScript `Math.round r`, i.e. the floor of `r + 1/2`, computed on the
fraction representation with integer arithmetic only. -/
def jsRound (r : JsNum) : Int :=
  let n := if r.d < 0 then -r.n else r.n
  let d := if r.d < 0 then -r.d else r.d
  Int.fdiv (2 * n + d) (2 * d)

/-- JavaScript `String.prototype.trim`, modelled character-wise (ASCII
whitespace; the extra Unicode white-space forms JS also trims do not occur in
this feed). -/
def trimChars (s : String) : String :=
  String.mk (((s.toList.dropWhile Char.isWhitespace).reverse.dropWhile Char.isWhitespace).reverse)

/-- JavaScript `String.prototype.toLowerCase`, character-wise (ASCII). -/
def lowerStr (s : String) : String :=
  String.mk (s.toList.map Char.toLower)

/-- JavaScript `String.prototype.toUpperCase`, character-wise (ASCII). -/
def upperStr (s : String) : String :=
  String.mk (s.toList.map Char.toUpper)

/-- Boolean check that the first list is a prefix of the second. -/
def prefixCheck : List Char → List Char → Bool
  | [], _ => true
  | _ :: _, [] => false
  | a :: as, b :: bs => a == b && prefixCheck as bs

/-- Boolean check that `n` occurs contiguously inside the second list; models
JavaScript `String.prototype.includes`. -/
def infixCheck (n : List Char) : List Char → Bool
  | [] => n.isEmpty
  | b :: bs => prefixCheck n (b :: bs) || infixCheck n bs

/-- JavaScript `hay.includes needle`. -/
def strIncludes (hay needle : String) : Bool :=
  infixCheck needle.toList hay.toList

/-- JavaScript `String.prototype.split` with a single-character separator;
returns the (always nonempty) list of segments. -/
def splitOnChar (c : Char) : List Char → List (List Char)
  | [] => [[]]
  | a :: t =>
    let r := splitOnChar c t
    if a == c then [] :: r
    else
      match r with
      | [] => [[a]]
      | h :: t2 => (a :: h) :: t2

/-- Value of a run of decimal digits (callers guarantee all chars are digits). -/
def digitsVal (l : List Char) : Nat :=
  l.foldl (fun a c => a * 10 + (c.toNat - 48)) 0

/-- Unsigned decimal literal, digits with an optional fractional part, as an
exact fraction; `none` when the text is not of that shape (JS would give NaN). -/
def parseUnsignedDec (l : List Char) : Option JsNum :=
  let ip := l.takeWhile Char.isDigit
  let rest := l.dropWhile Char.isDigit
  match rest with
  | [] => if ip.isEmpty then none else some ⟨(digitsVal ip : Int), 1⟩
  | '.' :: frac =>
    if frac.all Char.isDigit then
      if ip.isEmpty && frac.isEmpty then none
      else some ⟨(digitsVal ip : Int) * (10 : Int) ^ frac.length + (digitsVal frac : Int),
                 (10 : Int) ^ frac.length⟩
    else none
  | _ => none

/-- Split a numeric literal at the first exponent marker, e or E. -/
def splitAtExp (l : List Char) : List Char × Option (List Char) :=
  let m := l.takeWhile (fun c => !(c == 'e' || c == 'E'))
  let r := l.dropWhile (fun c => !(c == 'e' || c == 'E'))
  match r with
  | [] => (m, none)
  | _ :: t => (m, some t)

/-- Consume one optional leading sign character, returning the sign. -/
def readSign (l : List Char) : Int × List Char :=
  match l with
  | '+' :: t => (1, t)
  | '-' :: t => (-1, t)
  | _ => (1, l)

/-- Scale a `JsNum` by ten to a signed integer power. -/
def JsNum.scale10 (r : JsNum) (e : Int) : JsNum :=
  if 0 ≤ e then r.mulInt ((10 : Int) ^ e.toNat)
  else r.divInt ((10 : Int) ^ (-e).toNat)

/-- The decimal-literal fragment of the JavaScript `Number` string conversion:
optional sign, digits with optional fraction, optional signed exponent; the
empty string converts to 0.  Non-decimal forms (hex, octal and binary literals,
Infinity) are outside the model and yield `none`; the route discards non-finite
values anyway, so on this model's domain the composite coincides with the
source's "finite number or null". -/
def jsNumber (s : String) : Option JsNum :=
  match s.toList with
  | [] => some ⟨0, 1⟩
  | l =>
    let p := readSign l
    let me := splitAtExp p.2
    match me.2 with
    | none => (parseUnsignedDec me.1).map (fun m => m.mulInt p.1)
    | some ex =>
      match parseUnsignedDec me.1 with
      | none => none
      | some m =>
        let pe := readSign ex
        if !pe.2.isEmpty && pe.2.all Char.isDigit then
          some ((m.mulInt p.1).scale10 (pe.1 * (digitsVal pe.2 : Int)))
        else none

/-- The characters deleted by the comma-and-space strip in `toNumber`. -/
def keepNumChar (c : Char) : Bool :=
  !(c == ',' || c == ' ')

/-- The comma-and-space strip performed by `toNumber` (a global regex replace
deleting every comma and space). -/
def stripCommasSpaces (s : String) : String :=
  String.mk (s.toList.filter keepNumChar)

/-- `toNumber` from route.js: strips commas and spaces, trims, returns null for
a bare dash or the empty remainder, otherwise the finite numeric value of the
remainder (null when it is not numeric). -/
def toNumber (txt : String) : Option JsNum :=
  if txt == "" then none
  else
    let clean := trimChars (stripCommasSpaces txt)
    if clean == "-" || clean == "" then none
    else jsNumber clean

/-- The characters deleted by the strip in `parsePercent` (a global regex
replace deleting every whitespace character, comma, percent sign and plus
sign). -/
def keepPctChar (c : Char) : Bool :=
  !(c.isWhitespace || c == ',' || c == '%' || c == '+')

/-- The global whitespace, comma, percent and plus strip of `parsePercent`. -/
def stripPctChars (s : String) : String :=
  String.mk (s.toList.filter keepPctChar)

/-- Boolean test for a leading minus sign (the JS anchored regex test). -/
def leadingDash (s : String) : Bool :=
  match s.toList with
  | '-' :: _ => true
  | _ => false

/-- Drop one leading minus sign (the JS anchored regex replace). -/
def dropLeadingDash (s : String) : String :=
  match s.toList with
  | '-' :: t => String.mk t
  | _ => s

/-- `parsePercent` from route.js: strips whitespace, commas, percent signs and
plus signs everywhere, returns null for a bare dash or empty remainder, takes
the sign from the original string's leading minus, parses the remainder with
its leading minus removed, divides by 100 and reapplies the sign. -/
def parsePercent (txt : String) : Option JsNum :=
  if txt == "" then none
  else
    let t := trimChars (stripPctChars txt)
    if t == "-" || t == "" then none
    else
      let neg := leadingDash (trimChars txt)
      match jsNumber (dropLeadingDash t) with
      | none => none
      | some num => some ((num.divInt 100).mulInt (if neg then -1 else 1))

/-- `extractCode` from route.js: take the query string after the first question
mark, read the first `code` value as `URLSearchParams` would, upper-case it.
(Percent-decoding does not occur in the hrefs this feed produces and is not
modelled.) -/
def extractCode (href : String) : String :=
  let segs := splitOnChar '?' href.toList
  let qs := segs.getD 1 []
  let pairs := splitOnChar '&' qs
  let codeVals := pairs.filterMap (fun p =>
    match splitOnChar '=' p with
    | k :: rest => if k = ['c', 'o', 'd', 'e'] then some (List.intercalate ['='] rest) else none
    | [] => none)
  upperStr (String.mk (codeVals.headD []))

/-- The fixed 12-ticker watchlist (values of the `TARGETS` map; `TARGET_SET`
in route.js, with membership via `List.contains`). -/
def targetList : List String :=
  ["MTNN", "UBA", "GTCO", "ZENITHBANK", "ARADEL", "TOTALNG",
   "AIICO", "CORNERST", "OKOMUOIL", "PRESCO", "NESTLE", "DANGSUGAR"]

/-- One body row of the listings table, abstracted to the parts the route
reads: the first cell's anchor href and the text of cells 2, 3 and 4. -/
structure Row where
  href : String
  priceTxt : String
  dayTxt : String
  ytdTxt : String
deriving DecidableEq

/-- A table of the parsed document, abstracted to the header cell texts the
locator's selector collects and the body rows. -/
structure HtmlTable where
  headerCells : List String
  bodyRows : List Row
deriving DecidableEq

/-- The 32-byte zero-filled placeholder used as `hcsMsgId`. -/
def zeroHcsMsgId : String :=
  "0x0000000000000000000000000000000000000000000000000000000000000000"

/-- A price payload record as pushed by the route (`priceE6`, `seq`, `ts`,
`hcsMsgId`). -/
structure PricePayload where
  priceE6 : Int
  seq : Int
  ts : Int
  hcsMsgId : String
deriving DecidableEq

/-- A band payload record as pushed by the route (`midE6`, `widthBps`, `ts`). -/
structure BandPayload where
  midE6 : Int
  widthBps : Int
  ts : Int
deriving DecidableEq

/-- One entry of the diagnostic `rows` array. -/
structure TickerRecord where
  ticker : String
  price : JsNum
  day : Option JsNum
  ytd : Option JsNum
deriving DecidableEq

/-- Configuration the route reads from the environment: the private key, the
per-ticker asset address map (a falsy value, missing or empty, is `none`), the
band width in basis points and the timestamp snapshot `now`. -/
structure Config where
  privateKey : Option String
  envMap : String → Option String
  bandWidthBps : Int
  now : Int

/-- The mutable arrays the scrape loop fills, plus the warning log. -/
structure ScrapeState where
  tickers : List TickerRecord
  priceAssets : List String
  pricePayloads : List PricePayload
  bandAssets : List String
  bandPayloads : List BandPayload
  warnings : List String
deriving DecidableEq

/-- The empty initial scrape state. -/
def initState : ScrapeState :=
  ⟨[], [], [], [], [], []⟩

/-- The body of the per-row callback in route.js: extract and filter the code,
parse price and change columns, resolve the asset address, then push one price
and one band payload (or skip the row / log a warning). -/
def processRow (cfg : Config) (st : ScrapeState) (row : Row) : ScrapeState :=
  let code := extractCode row.href
  if code == "" || !(targetList.contains code) then st
  else
    let price := toNumber (trimChars row.priceTxt)
    let day := parsePercent (trimChars row.dayTxt)
    let ytd := parsePercent (trimChars row.ytdTxt)
    match price with
    | none => st
    | some p =>
      match cfg.envMap code with
      | none => { st with warnings := st.warnings ++ ["No address configured for " ++ code] }
      | some assetAddress =>
        let pxE6 : Int := jsRound (p.mulInt 1000000)
        { st with
          priceAssets := st.priceAssets ++ [assetAddress]
          pricePayloads := st.pricePayloads ++
            [{ priceE6 := pxE6, seq := cfg.now, ts := cfg.now, hcsMsgId := zeroHcsMsgId }]
          bandAssets := st.bandAssets ++ [assetAddress]
          bandPayloads := st.bandPayloads ++
            [{ midE6 := pxE6, widthBps := cfg.bandWidthBps, ts := cfg.now }]
          tickers := st.tickers ++ [{ ticker := code, price := p, day := day, ytd := ytd }] }

/-- The scrape loop over all body rows. -/
def processRows (cfg : Config) (rows : List Row) (st : ScrapeState) : ScrapeState :=
  rows.foldl (processRow cfg) st

/-- Does a row survive the watchlist filter, the price parse and the asset
mapping lookup (the three conditions under which the loop pushes payloads)? -/
def survives (cfg : Config) (row : Row) : Bool :=
  let code := extractCode row.href
  !(code == "" || !(targetList.contains code)) &&
    (toNumber (trimChars row.priceTxt)).isSome && (cfg.envMap code).isSome

/-- The parsed price of a row (0 when the price text does not parse; only used
on surviving rows, whose price text parses). -/
def rowPrice (row : Row) : JsNum :=
  (toNumber (trimChars row.priceTxt)).getD ⟨0, 1⟩

/-- The resolved asset address of a row (empty when unmapped; only used on
surviving rows, which are mapped). -/
def rowAddr (cfg : Config) (row : Row) : String :=
  (cfg.envMap (extractCode row.href)).getD ""

/-- The price payload the loop pushes for a surviving row. -/
def mkPricePayload (cfg : Config) (row : Row) : PricePayload :=
  { priceE6 := jsRound ((rowPrice row).mulInt 1000000),
    seq := cfg.now, ts := cfg.now, hcsMsgId := zeroHcsMsgId }

/-- The band payload the loop pushes for a surviving row. -/
def mkBandPayload (cfg : Config) (row : Row) : BandPayload :=
  { midE6 := jsRound ((rowPrice row).mulInt 1000000),
    widthBps := cfg.bandWidthBps, ts := cfg.now }

/-- The ticker record the loop pushes for a surviving row. -/
def mkTickerRecord (row : Row) : TickerRecord :=
  { ticker := extractCode row.href, price := rowPrice row,
    day := parsePercent (trimChars row.dayTxt), ytd := parsePercent (trimChars row.ytdTxt) }

/-- The table-locator predicate of route.js: the collected header cells number
at least five, and, lowercased, some cell contains "company" and some cell
contains "price". -/
def tableMatches (t : HtmlTable) : Bool :=
  t.headerCells.length ≥ 5 &&
    t.headerCells.any (fun h => strIncludes (lowerStr h) "company") &&
    t.headerCells.any (fun h => strIncludes (lowerStr h) "price")

/-- The locator: keep the tables satisfying the predicate, take the first, and
fail with the route's error message when there is none. -/
def locateTable (tables : List HtmlTable) : Except String HtmlTable :=
  match tables.filter tableMatches with
  | [] => Except.error "Could not locate listings table"
  | t :: _ => Except.ok t

/-- A confirmed transaction, abstracted to its hash.  An oracle call outcome
`Except String Tx` covers both the call itself and the confirmation wait: it is
`ok` exactly when both succeed. -/
structure Tx where
  hash : String
deriving DecidableEq

/-- The price phase: skipped when no assets survive, otherwise one bulk
`setPrices` call whose failure is fatal. -/
def pricePhase (res : Except String Tx) (n : Nat) : Except String (Option String) :=
  if n = 0 then Except.ok none
  else
    match res with
    | Except.ok tx => Except.ok (some tx.hash)
    | Except.error e => Except.error e

/-- The per-asset `setBand` fallback loop starting at index `i` with `fuel`
assets left and `h` the hash recorded so far.  Returns how many `setBand` calls
were issued and either the final recorded hash or the error that escaped the
loop (the loop body has no handler of its own, so the first failing call ends
the loop). -/
def runSetBandLoop (call : Nat → Except String Tx) :
    Nat → Nat → Option String → Nat × Except String (Option String)
  | _, 0, h => (0, Except.ok h)
  | i, Nat.succ fuel, _h =>
    match call i with
    | Except.error e => (1, Except.error e)
    | Except.ok tx =>
      let r := runSetBandLoop call (i + 1) fuel (some tx.hash)
      (r.1 + 1, r.2)

/-- The band phase: skipped when no assets survive; otherwise prefer the bulk
`setBands` call when the interface has one, falling into the per-asset loop
when it is absent or when the bulk call throws.  Returns the number of
per-asset `setBand` calls issued and the resulting band hash (or the escaping
error). -/
def bandPhase (hasBulk : Bool) (bulkRes : Except String Tx)
    (call : Nat → Except String Tx) (n : Nat) : Nat × Except String (Option String) :=
  if n = 0 then (0, Except.ok none)
  else if hasBulk then
    match bulkRes with
    | Except.ok tx => (0, Except.ok (some tx.hash))
    | Except.error _ => runSetBandLoop call 0 n none
  else runSetBandLoop call 0 n none

/-- What the FX phase's CoinMarketCap fetch plus JSON decode yields when it
does not throw: the HTTP status and the optional CNGN quote price. -/
structure FxFetch where
  status : Nat
  cngnPrice : Option JsNum
deriving DecidableEq

instance {ε α : Type} [DecidableEq ε] [DecidableEq α] : DecidableEq (Except ε α) := fun x y =>
  match x, y with
  | Except.ok a, Except.ok b =>
    match decEq a b with
    | isTrue h => isTrue (by rw [h])
    | isFalse h => isFalse (fun hh => h (Except.ok.inj hh))
  | Except.error a, Except.error b =>
    match decEq a b with
    | isTrue h => isTrue (by rw [h])
    | isFalse h => isFalse (fun hh => h (Except.error.inj hh))
  | Except.ok _, Except.error _ => isFalse (fun hh => Except.noConfusion hh)
  | Except.error _, Except.ok _ => isFalse (fun hh => Except.noConfusion hh)

/-- The external outcomes the FX side-channel phase depends on: the rate fetch
(error when the fetch or JSON decode throws) and the two oracle writes. -/
structure FxEnv where
  fetchResult : Except String FxFetch
  setPriceResult : Except String Tx
  setBandResult : Except String Tx
deriving DecidableEq

/-- Round a value to two decimal places, modelling the route's
`Number(1 / price).toFixed(2)` followed by numeric coercion. -/
def twoDp (r : JsNum) : JsNum :=
  ⟨jsRound (r.mulInt 100), 100⟩

/-- The NGN-per-USD rate the FX phase computes: 1500 by default, replaced by
the two-decimal rounding of the reciprocal quote price when the fetch returned
status 200 with a positive price. -/
def fxRate (fr : FxFetch) : JsNum :=
  if fr.status = 200 then
    match fr.cngnPrice with
    | some p => if p.isPos then twoDp p.recip else ⟨1500, 1⟩
    | none => ⟨1500, 1⟩
  else ⟨1500, 1⟩

/-- The synthetic NGN oracle asset address used by the FX phase. -/
def ngnAsset : String :=
  "0x00000000000000000000000000000000006a1e8c"

/-- What a completed FX phase submitted: the price and band loads and the band
transaction hash that overwrites `bandTxHash`. -/
structure FxOutcome where
  rateE6 : JsNum
  priceLoadTs : Int
  bandLoadWidthBps : Int
  bandHash : String
deriving DecidableEq

/-- The FX side-channel phase of route.js, up to its own try boundary: fetch
the rate (default 1500 on non-200 status or absent/non-positive price), build
the price and band loads for the NGN asset, submit `setPrice` then `setBand`.
Any error (fetch, JSON decode, either write or its confirmation) escapes as
`Except.error` and is caught by the phase boundary in `runGet`. -/
def fxPhase (fx : FxEnv) (cfg : Config) : Except String FxOutcome := do
  let fr ← fx.fetchResult
  let rate := fxRate fr
  let rateE6 := rate.mulInt 1000000
  let _tx3 ← fx.setPriceResult
  let tx4 ← fx.setBandResult
  pure { rateE6 := rateE6, priceLoadTs := cfg.now,
         bandLoadWidthBps := cfg.bandWidthBps, bandHash := tx4.hash }

/-- A block read from the chain, abstracted to its timestamp. -/
structure BlockInfo where
  timestamp : Int
deriving DecidableEq

/-- `nowSec` from the timestamp-snapshot variant: prefer the latest block's
timestamp when the chain read succeeds with a block carrying a truthy (nonzero)
timestamp, otherwise fall back to the local wall clock. -/
def nowSec (blockRes : Except String (Option BlockInfo)) (wallClock : Int) : Int :=
  match blockRes with
  | Except.ok (some b) => if b.timestamp ≠ 0 then b.timestamp else wallClock
  | Except.ok none => wallClock
  | Except.error _ => wallClock

/-- The success body of the route's JSON response. -/
structure OkBody where
  pricesUpdated : Nat
  bandsUpdated : Nat
  priceTxHash : Option String
  bandTxHash : Option String
  bandWidthBps : Int
deriving DecidableEq

/-- The route's response: the success body with HTTP 200, or the error message
with HTTP 500 produced by the top-level catch. -/
inductive RouteResult where
  | ok (body : OkBody)
  | err (message : String)
deriving DecidableEq

/-- The `success` field of the response. -/
def RouteResult.success : RouteResult → Bool
  | RouteResult.ok _ => true
  | RouteResult.err _ => false

/-- The `pricesUpdated` field of the response (0 when the field is absent, on
the error response). -/
def RouteResult.pricesUpdated : RouteResult → Nat
  | RouteResult.ok b => b.pricesUpdated
  | RouteResult.err _ => 0

/-- The `bandsUpdated` field of the response (0 when absent). -/
def RouteResult.bandsUpdated : RouteResult → Nat
  | RouteResult.ok b => b.bandsUpdated
  | RouteResult.err _ => 0

/-- The `bandTxHash` field of the response (`none` when absent). -/
def RouteResult.bandHash : RouteResult → Option String
  | RouteResult.ok b => b.bandTxHash
  | RouteResult.err _ => none

/-- The external call outcomes of the equity phases. -/
structure OracleEnv where
  setPricesResult : Except String Tx
  hasSetBands : Bool
  setBandsResult : Except String Tx
  setBandCall : Nat → Except String Tx

/-- The whole GET handler of route.js after the provider and wallet setup:
check the key, fetch the page (already parsed into its tables), locate the
listings table, run the scrape loop, run the price phase and the band phase
(each fatal on an escaping error, via the top-level catch), then the
failure-isolated FX phase, and build the response. -/
def runGet (cfg : Config) (fetchRes : Except String (List HtmlTable))
    (oracle : OracleEnv) (fx : FxEnv) : RouteResult :=
  if cfg.privateKey.isNone then RouteResult.err "Private key missing"
  else
    match fetchRes with
    | Except.error e => RouteResult.err e
    | Except.ok tables =>
      match locateTable tables with
      | Except.error e => RouteResult.err e
      | Except.ok tbl =>
        let st := processRows cfg tbl.bodyRows initState
        match pricePhase oracle.setPricesResult st.priceAssets.length with
        | Except.error e => RouteResult.err e
        | Except.ok priceTxHash =>
          match (bandPhase oracle.hasSetBands oracle.setBandsResult
                   oracle.setBandCall st.bandAssets.length).2 with
          | Except.error e => RouteResult.err e
          | Except.ok bandTxHash =>
            let bandTxHash2 :=
              match fxPhase fx cfg with
              | Except.ok out => some out.bandHash
              | Except.error _ => bandTxHash
            RouteResult.ok
              { pricesUpdated := st.priceAssets.length
                bandsUpdated := st.bandAssets.length
                priceTxHash := priceTxHash
                bandTxHash := bandTxHash2
                bandWidthBps := cfg.bandWidthBps }

/-- A concrete configuration used by the witness instantiations. -/
def cfgX : Config :=
  { privateKey := some "pk"
    envMap := fun c => if c == "MTNN" then some "0xA1" else if c == "UBA" then some "0xA2" else none
    bandWidthBps := 150
    now := 1700000000 }

/-- A concrete surviving MTNN row. -/
def row1 : Row :=
  ⟨"company?code=mtnn", "250.50", "+1.20%", "-3.40%"⟩

/-- A concrete surviving UBA row. -/
def row2 : Row :=
  ⟨"company?code=uba", "30", "-", "-"⟩

/-- A concrete row whose ticker is outside the watchlist. -/
def rowOther : Row :=
  ⟨"company?code=foo", "10", "+1%", "-"⟩

/-- A concrete watchlisted row whose price text parses to a negative number. -/
def rowNeg : Row :=
  ⟨"x?code=MTNN", "-5", "-", "-"⟩

/-- A concrete listings table holding the two surviving rows. -/
def tableX : HtmlTable :=
  ⟨["Company", "Sector", "Price", "Day", "YTD"], [row1, row2]⟩

/-- A concrete oracle environment in which every equity call succeeds. -/
def oracleOkX : OracleEnv :=
  { setPricesResult := Except.ok ⟨"0xP"⟩
    hasSetBands := true
    setBandsResult := Except.ok ⟨"0xB"⟩
    setBandCall := fun _ => Except.ok ⟨"0xS"⟩ }

/-- A concrete FX environment whose fetch throws. -/
def fxFail : FxEnv :=
  { fetchResult := Except.error "network down"
    setPriceResult := Except.error "unreached"
    setBandResult := Except.error "unreached" }

/-- A concrete FX environment in which every step succeeds. -/
def fxOkX : FxEnv :=
  { fetchResult := Except.ok ⟨200, some ⟨2, 3000⟩⟩
    setPriceResult := Except.ok ⟨"0xF3"⟩
    setBandResult := Except.ok ⟨"0xF4"⟩ }

/-- A default payload used only to read a head element in closed statements. -/
def dfltPricePayload : PricePayload :=
  { priceE6 := 0, seq := 0, ts := 0, hcsMsgId := "" }

/-- A concrete per-asset call sequence whose first call fails. -/
def cexBandCall : Nat → Except String Tx :=
  fun i => if i = 0 then Except.error "boom" else Except.ok ⟨"0xdead"⟩

/-- A concrete oracle environment without a bulk band call and with a failing
first per-asset call. -/
def oracleFailX : OracleEnv :=
  { setPricesResult := Except.ok ⟨"0xP"⟩
    hasSetBands := false
    setBandsResult := Except.error "unsupported"
    setBandCall := cexBandCall }

/-- A concrete successful chain read. -/
def blockResX : Except String (Option BlockInfo) :=
  Except.ok (some ⟨1234⟩)

/-- The concrete configuration with the timestamp snapshot taken from
`blockResX`. -/
def cfgC3 : Config :=
  { cfgX with now := 1234 }

/-- Flooring division of integers agrees with the rational floor. -/
lemma fdiv_eq_floor_div (a b : ℤ) (hb : 0 < b) :
    Int.fdiv a b = Int.floor ((a : ℚ) / (b : ℚ)) := by
  rw [Int.fdiv_eq_ediv a hb.le]
  have h1 : ((b.toNat : ℕ) : ℤ) = b := Int.toNat_of_nonneg hb.le
  have h2 := Rat.floor_intCast_div_natCast a b.toNat
  have h3 : ((b.toNat : ℕ) : ℚ) = ((b : ℤ) : ℚ) := by exact_mod_cast h1
  rw [h3, h1] at h2
  exact h2.symm

/-- The integer computation inside `jsRound`, for a positive denominator. -/
lemma fdiv_round (n d : ℤ) (hd : 0 < d) :
    Int.fdiv (2 * n + d) (2 * d) = Int.floor ((n : ℚ) / (d : ℚ) + 1 / 2) := by
  rw [fdiv_eq_floor_div _ _ (by linarith)]
  congr 1
  have hdq : (d : ℚ) ≠ 0 := by exact_mod_cast hd.ne'
  field_simp
  ring

/-- `jsRound` is the floor of the denoted value plus one half, i.e. exactly
JavaScript `Math.round` on the denoted value. -/
lemma jsRound_eq_floor (r : JsNum) (hd : r.d ≠ 0) :
    jsRound r = Int.floor (r.val + 1 / 2) := by
  unfold jsRound JsNum.val
  by_cases h : r.d < 0
  · simp only [if_pos h]
    rw [fdiv_round (-r.n) (-r.d) (by linarith)]
    have : ((-r.n : ℤ) : ℚ) / ((-r.d : ℤ) : ℚ) = (r.n : ℚ) / (r.d : ℚ) := by
      push_cast
      rw [neg_div_neg_eq]
    rw [this]
  · have h' : 0 < r.d := lt_of_le_of_ne (not_lt.mp h) (Ne.symm hd)
    simp only [if_neg h]
    exact fdiv_round r.n r.d h'

/-- The denoted value of an integer multiple. -/
lemma val_mulInt (r : JsNum) (k : Int) : (r.mulInt k).val = r.val * (k : ℚ) := by
  unfold JsNum.mulInt JsNum.val
  push_cast
  ring

/-- The denoted value of an integer quotient. -/
lemma val_divInt (r : JsNum) (k : Int) : (r.divInt k).val = r.val / (k : ℚ) := by
  unfold JsNum.divInt JsNum.val
  push_cast
  rw [div_div]

/-- The fractions produced by the decimal parser have positive denominators. -/
lemma parseUnsignedDec_d_pos (l : List Char) (r : JsNum)
    (h : parseUnsignedDec l = some r) : 0 < r.d := by
  unfold parseUnsignedDec at h
  dsimp only at h
  split at h
  · split at h
    · exact absurd h (by simp)
    · simp only [Option.some.injEq] at h
      rw [← h]
      norm_num
  · split at h
    · split at h
      · exact absurd h (by simp)
      · simp only [Option.some.injEq] at h
        rw [← h]
        positivity
    · exact absurd h (by simp)
  · exact absurd h (by simp)

/-- The fractions produced by the JS number conversion have positive
denominators. -/
lemma jsNumber_d_pos (s : String) (r : JsNum) (h : jsNumber s = some r) : 0 < r.d := by
  unfold jsNumber at h
  split at h
  · simp only [Option.some.injEq] at h
    rw [← h]
    norm_num
  · rename_i l _
    dsimp only at h
    split at h
    · rw [Option.map_eq_some'] at h
      obtain ⟨m, hm, hr⟩ := h
      have := parseUnsignedDec_d_pos _ _ hm
      rw [← hr]
      exact this
    · split at h
      · exact absurd h (by simp)
      · split at h
        · simp only [Option.some.injEq] at h
          rename_i m hm _
          have hdm := parseUnsignedDec_d_pos _ _ hm
          rw [← h]
          unfold JsNum.scale10
          split
          · exact hdm
          · unfold JsNum.mulInt JsNum.divInt
            positivity
        · exact absurd h (by simp)

/-- The fractions produced by `toNumber` have positive denominators. -/
lemma toNumber_d_pos (txt : String) (r : JsNum) (h : toNumber txt = some r) : 0 < r.d := by
  unfold toNumber at h
  split at h
  · exact absurd h (by simp)
  · dsimp only at h
    split at h
    · exact absurd h (by simp)
    · exact jsNumber_d_pos _ _ h

/-- A row whose extracted code is empty or outside the watchlist leaves the
scrape state fully unchanged (no arrays touched, no warning logged). -/
lemma processRow_skip (cfg : Config) (st : ScrapeState) (row : Row)
    (h : extractCode row.href = "" ∨ targetList.contains (extractCode row.href) = false) :
    processRow cfg st row = st := by
  unfold processRow
  have hc : (extractCode row.href == "" || !(targetList.contains (extractCode row.href))) = true := by
    rcases h with h | h
    · rw [h]
      rfl
    · rw [h]
      simp
  rw [if_pos hc]

/-- On a surviving row the loop body appends exactly one entry to each of the
five arrays. -/
lemma processRow_of_survives (cfg : Config) (st : ScrapeState) (row : Row)
    (h : survives cfg row = true) :
    processRow cfg st row =
      { st with
        tickers := st.tickers ++ [mkTickerRecord row]
        priceAssets := st.priceAssets ++ [rowAddr cfg row]
        pricePayloads := st.pricePayloads ++ [mkPricePayload cfg row]
        bandAssets := st.bandAssets ++ [rowAddr cfg row]
        bandPayloads := st.bandPayloads ++ [mkBandPayload cfg row] } := by
  have h' := h
  unfold survives at h'
  dsimp only at h'
  rw [Bool.and_eq_true, Bool.and_eq_true] at h'
  obtain ⟨⟨h1, h2⟩, h3⟩ := h'
  rw [Bool.not_eq_true'] at h1
  obtain ⟨p, hp⟩ := Option.isSome_iff_exists.mp h2
  obtain ⟨a, ha⟩ := Option.isSome_iff_exists.mp h3
  unfold processRow
  dsimp only
  rw [if_neg (by rw [h1]; simp), hp, ha]
  simp only [mkTickerRecord, mkPricePayload, mkBandPayload, rowPrice, rowAddr, hp, ha,
    Option.getD_some]

/-- On a non-surviving row the loop body leaves every array unchanged (at most
the warning log grows). -/
lemma processRow_arrays_of_not_survives (cfg : Config) (st : ScrapeState) (row : Row)
    (h : survives cfg row = false) :
    (processRow cfg st row).tickers = st.tickers ∧
    (processRow cfg st row).priceAssets = st.priceAssets ∧
    (processRow cfg st row).pricePayloads = st.pricePayloads ∧
    (processRow cfg st row).bandAssets = st.bandAssets ∧
    (processRow cfg st row).bandPayloads = st.bandPayloads := by
  unfold processRow
  dsimp only
  by_cases hc : (extractCode row.href == "" || !(targetList.contains (extractCode row.href))) = true
  · rw [if_pos hc]
    exact ⟨rfl, rfl, rfl, rfl, rfl⟩
  · rw [if_neg hc]
    cases hp : toNumber (trimChars row.priceTxt) with
    | none => exact ⟨rfl, rfl, rfl, rfl, rfl⟩
    | some p =>
      cases ha : cfg.envMap (extractCode row.href) with
      | none => exact ⟨rfl, rfl, rfl, rfl, rfl⟩
      | some a =>
        exfalso
        have hs : survives cfg row = true := by
          unfold survives
          dsimp only
          rw [hp, ha]
          simp [Bool.not_eq_true] at hc
          simp [hc]
        rw [h] at hs
        exact Bool.noConfusion hs

/-- The scrape loop appends, to each array, exactly the image of the surviving
rows under the corresponding payload constructor, in row order. -/
lemma processRows_arrays (cfg : Config) (rows : List Row) : ∀ st : ScrapeState,
    (processRows cfg rows st).priceAssets =
      st.priceAssets ++ (rows.filter (survives cfg)).map (rowAddr cfg) ∧
    (processRows cfg rows st).pricePayloads =
      st.pricePayloads ++ (rows.filter (survives cfg)).map (mkPricePayload cfg) ∧
    (processRows cfg rows st).bandAssets =
      st.bandAssets ++ (rows.filter (survives cfg)).map (rowAddr cfg) ∧
    (processRows cfg rows st).bandPayloads =
      st.bandPayloads ++ (rows.filter (survives cfg)).map (mkBandPayload cfg) := by
  induction rows with
  | nil => intro st; simp [processRows]
  | cons r rs ih =>
    intro st
    have hstep : processRows cfg (r :: rs) st = processRows cfg rs (processRow cfg st r) := by
      simp [processRows]
    rw [hstep]
    cases hsv : survives cfg r with
    | true =>
      rw [processRow_of_survives cfg st r hsv]
      rcases ih _ with ⟨e1, e2, e3, e4⟩
      rw [e1, e2, e3, e4]
      simp [List.filter_cons, hsv, List.append_assoc]
    | false =>
      rcases processRow_arrays_of_not_survives cfg st r hsv with ⟨_, p1, p2, b1, b2⟩
      rcases ih (processRow cfg st r) with ⟨e1, e2, e3, e4⟩
      rw [e1, e2, e3, e4, p1, p2, b1, b2]
      simp [List.filter_cons, hsv]

/-- The locator fails, with the route's exact message, precisely when no table
satisfies the predicate. -/
lemma locateTable_error_iff (tables : List HtmlTable) :
    locateTable tables = Except.error "Could not locate listings table" ↔
      ∀ t ∈ tables, tableMatches t = false := by
  unfold locateTable
  cases hf : tables.filter tableMatches with
  | nil =>
    constructor
    · intro _ t ht
      have := List.filter_eq_nil_iff.mp hf t ht
      simpa using this
    · intro _
      rfl
  | cons a l =>
    constructor
    · intro h
      exact absurd h (by simp)
    · intro hall
      exfalso
      have ha : a ∈ tables.filter tableMatches := by
        rw [hf]
        exact List.mem_cons_self a l
      have hmem := List.mem_filter.mp ha
      have h2 := hall a hmem.1
      rw [hmem.2] at h2
      exact Bool.noConfusion h2

/-- When the locator succeeds it returns a matching table that is the first
matching one in document order. -/
lemma locateTable_ok (tables : List HtmlTable) (t : HtmlTable)
    (h : locateTable tables = Except.ok t) :
    tableMatches t = true ∧
      ∃ pre post, tables = pre ++ t :: post ∧ ∀ u ∈ pre, tableMatches u = false := by
  induction tables with
  | nil => exact absurd h (by simp [locateTable])
  | cons a l ih =>
    by_cases hm : tableMatches a = true
    · have hloc : locateTable (a :: l) = Except.ok a := by
        unfold locateTable
        simp [List.filter_cons, hm]
      rw [hloc] at h
      obtain rfl : a = t := Except.ok.inj h
      exact ⟨hm, [], l, rfl, by simp⟩
    · have hstep : locateTable (a :: l) = locateTable l := by
        unfold locateTable
        simp [List.filter_cons, hm]
      rw [hstep] at h
      obtain ⟨h1, pre, post, heq, hall⟩ := ih h
      refine ⟨h1, a :: pre, post, by rw [heq]; rfl, ?_⟩
      intro u hu
      rcases List.mem_cons.mp hu with rfl | hu
      · simpa using hm
      · exact hall u hu

/-- When every per-asset call succeeds, the fallback loop issues exactly one
call per asset and records the hash of the last call. -/
lemma runSetBandLoop_all_ok (call : Nat → Except String Tx) :
    ∀ (fuel i : Nat) (h : Option String),
      (∀ k, k < fuel → ∃ tx, call (i + k) = Except.ok tx) →
      (runSetBandLoop call i fuel h).1 = fuel ∧
      ((fuel = 0 → (runSetBandLoop call i fuel h).2 = Except.ok h) ∧
       (0 < fuel → ∃ tx, call (i + fuel - 1) = Except.ok tx ∧
          (runSetBandLoop call i fuel h).2 = Except.ok (some tx.hash))) := by
  intro fuel
  induction fuel with
  | zero =>
    intro i h _
    exact ⟨rfl, fun _ => rfl, fun hlt => absurd hlt (by simp)⟩
  | succ m ih =>
    intro i h hall
    obtain ⟨tx, htx⟩ := hall 0 (Nat.succ_pos m)
    rw [Nat.add_zero] at htx
    have hrec := ih (i + 1) (some tx.hash) (fun k hk => by
      have := hall (k + 1) (Nat.succ_lt_succ hk)
      rwa [show i + (k + 1) = i + 1 + k by ring] at this)
    have hdef : runSetBandLoop call i (m + 1) h =
        ((runSetBandLoop call (i + 1) m (some tx.hash)).1 + 1,
         (runSetBandLoop call (i + 1) m (some tx.hash)).2) := by
      simp [runSetBandLoop, htx]
    rcases hrec with ⟨hc, hz, hpos⟩
    refine ⟨by rw [hdef]; simp [hc], fun h0 => absurd h0 (by simp), fun _ => ?_⟩
    cases Nat.eq_zero_or_pos m with
    | inl hm0 =>
      subst hm0
      refine ⟨tx, by simpa using htx, ?_⟩
      rw [hdef]
      simpa using hz rfl
    | inr hmpos =>
      obtain ⟨tx2, h1, h2⟩ := hpos hmpos
      refine ⟨tx2, ?_, ?_⟩
      · rw [show i + (m + 1) - 1 = i + 1 + m - 1 by omega]
        exact h1
      · rw [hdef]
        exact h2

/-- When the per-asset call at offset `j` fails and all earlier calls succeed,
the fallback loop issues exactly `j + 1` calls and the error escapes. -/
lemma runSetBandLoop_fail (call : Nat → Except String Tx) :
    ∀ (j fuel i : Nat) (h : Option String) (e : String),
      j < fuel → call (i + j) = Except.error e →
      (∀ k, k < j → ∃ tx, call (i + k) = Except.ok tx) →
      runSetBandLoop call i fuel h = (j + 1, Except.error e) := by
  intro j
  induction j with
  | zero =>
    intro fuel i h e hlt herr _
    cases fuel with
    | zero => omega
    | succ m =>
      rw [Nat.add_zero] at herr
      simp [runSetBandLoop, herr]
  | succ j2 ih =>
    intro fuel i h e hlt herr hall
    cases fuel with
    | zero => omega
    | succ m =>
      obtain ⟨tx, htx⟩ := hall 0 (Nat.succ_pos j2)
      rw [Nat.add_zero] at htx
      have hrec := ih m (i + 1) (some tx.hash) e (by omega)
        (by rwa [show i + 1 + j2 = i + (j2 + 1) by ring])
        (fun k hk => by
          have := hall (k + 1) (Nat.succ_lt_succ hk)
          rwa [show i + (k + 1) = i + 1 + k by ring] at this)
      simp [runSetBandLoop, htx, hrec]

/-- When the interface has no bulk band call and assets survive, the band phase
is exactly the fallback loop. -/
lemma bandPhase_noBulk (bulkRes : Except String Tx) (call : Nat → Except String Tx)
    (n : Nat) (hn : n ≠ 0) :
    bandPhase false bulkRes call n = runSetBandLoop call 0 n none := by
  unfold bandPhase
  rw [if_neg hn]
  simp

/-- When the bulk band call throws and assets survive, the band phase is
exactly the fallback loop. -/
lemma bandPhase_bulkErr (e : String) (call : Nat → Except String Tx)
    (n : Nat) (hn : n ≠ 0) :
    bandPhase true (Except.error e) call n = runSetBandLoop call 0 n none := by
  unfold bandPhase
  rw [if_neg hn]
  simp

/-- When the key is present, the table is located and both equity phases
succeed, the route returns the success response, whose band hash is the FX
result when the FX phase completed and the equity band hash otherwise. -/
lemma runGet_ok_form (cfg : Config) (tables : List HtmlTable) (tbl : HtmlTable)
    (oracle : OracleEnv) (fx : FxEnv) (pt bt : Option String)
    (hkey : cfg.privateKey.isSome = true)
    (hloc : locateTable tables = Except.ok tbl)
    (hp : pricePhase oracle.setPricesResult
      (processRows cfg tbl.bodyRows initState).priceAssets.length = Except.ok pt)
    (hb : (bandPhase oracle.hasSetBands oracle.setBandsResult oracle.setBandCall
      (processRows cfg tbl.bodyRows initState).bandAssets.length).2 = Except.ok bt) :
    runGet cfg (Except.ok tables) oracle fx = RouteResult.ok
      { pricesUpdated := (processRows cfg tbl.bodyRows initState).priceAssets.length
        bandsUpdated := (processRows cfg tbl.bodyRows initState).bandAssets.length
        priceTxHash := pt
        bandTxHash :=
          match fxPhase fx cfg with
          | Except.ok out => some out.bandHash
          | Except.error _ => bt
        bandWidthBps := cfg.bandWidthBps } := by
  obtain ⟨k, hk⟩ := Option.isSome_iff_exists.mp hkey
  unfold runGet
  rw [hk]
  rw [if_neg (by simp)]
  dsimp only
  rw [hloc]
  dsimp only
  rw [hp]
  dsimp only
  rw [hb]

/-- A completed FX phase carries the hash of its own setBand transaction. -/
lemma fxPhase_ok_bandHash (fx : FxEnv) (cfg : Config) (out : FxOutcome)
    (h : fxPhase fx cfg = Except.ok out) :
    ∃ tx, fx.setBandResult = Except.ok tx ∧ out.bandHash = tx.hash := by
  unfold fxPhase at h
  cases hf : fx.fetchResult with
  | error e =>
    rw [hf] at h
    exact absurd h (by simp [Bind.bind, Except.bind])
  | ok fr =>
    rw [hf] at h
    cases hsp : fx.setPriceResult with
    | error e =>
      rw [hsp] at h
      exact absurd h (by simp [Bind.bind, Except.bind])
    | ok tx3 =>
      rw [hsp] at h
      cases hsb : fx.setBandResult with
      | error e =>
        rw [hsb] at h
        exact absurd h (by simp [Bind.bind, Except.bind])
      | ok tx4 =>
        rw [hsb] at h
        simp only [Bind.bind, Except.bind, pure, Except.pure, Except.ok.injEq] at h
        exact ⟨tx4, rfl, by rw [← h]⟩

/-- C1 (amended): when the bulk band call is unsupported or throws, the
submitter runs the sequential per-asset `setBand` loop in asset order, awaiting
each confirmation; if every per-asset call succeeds it issues exactly N calls
and the band phase's resulting transaction identifier is the hash of the last
call; but if an individual call fails, the loop stops there (j+1 calls issued,
the remaining assets are not attempted) and the error escapes the phase,
aborting the invocation. -/
theorem C1_band_fallback (bulkRes : Except String Tx) (call : Nat → Except String Tx)
    (n : Nat) (hn : 0 < n) :
    bandPhase false bulkRes call n = runSetBandLoop call 0 n none ∧
    (∀ e, bulkRes = Except.error e →
      bandPhase true bulkRes call n = runSetBandLoop call 0 n none) ∧
    ((∀ k, k < n → ∃ tx, call k = Except.ok tx) →
      (runSetBandLoop call 0 n none).1 = n ∧
      ∃ tx, call (n - 1) = Except.ok tx ∧
        (runSetBandLoop call 0 n none).2 = Except.ok (some tx.hash)) ∧
    (∀ j e, j < n → call j = Except.error e →
      (∀ k, k < j → ∃ tx, call k = Except.ok tx) →
      runSetBandLoop call 0 n none = (j + 1, Except.error e)) := by
  refine ⟨bandPhase_noBulk bulkRes call n hn.ne', ?_, ?_, ?_⟩
  · intro e he
    rw [he]
    exact bandPhase_bulkErr e call n hn.ne'
  · intro hall
    have h := runSetBandLoop_all_ok call n 0 none (by simpa using hall)
    refine ⟨h.1, ?_⟩
    have := h.2.2 hn
    simpa using this
  · intro j e hj herr hall
    exact runSetBandLoop_fail call j n 0 none e hj (by simpa using herr) (by simpa using hall)

/-- Witness for C1 (amended): two assets, every per-asset call succeeding. -/
theorem C1_band_fallback_witness :
    (runSetBandLoop (fun _ => Except.ok ⟨"0xS"⟩) 0 2 none).1 = 2 ∧
    (runSetBandLoop (fun _ => Except.ok ⟨"0xS"⟩) 0 2 none).2 = Except.ok (some "0xS") := by
  have h := (C1_band_fallback (Except.error "u") (fun _ => Except.ok ⟨"0xS"⟩) 2
    (by decide)).2.2.1 (fun k _ => ⟨⟨"0xS"⟩, rfl⟩)
  obtain ⟨h1, tx, htx, h2⟩ := h
  have : (⟨"0xS"⟩ : Tx) = tx := Except.ok.inj htx
  rw [← this] at h2
  exact ⟨h1, h2⟩

/-- C1 counterexample: two surviving assets, bulk call unsupported and the
first per-asset call failing: only one `setBand` call is issued (not two), the
error escapes the band phase, and the whole invocation aborts with a failure
response, so no band transaction identifier is reported at all. -/
theorem C1_counterexample :
    (bandPhase false (Except.error "unsupported") cexBandCall 2).1 = 1 ∧
    ¬ (bandPhase false (Except.error "unsupported") cexBandCall 2).1 = 2 ∧
    (bandPhase false (Except.error "unsupported") cexBandCall 2).2 = Except.error "boom" ∧
    runGet cfgX (Except.ok [tableX]) oracleFailX fxFail = RouteResult.err "boom" := by
  exact ⟨by decide, by decide, by decide, by decide⟩

/-- C4: once the equity price and band phases have completed, no outcome of the
FX side-channel phase can change the response's success flag or its
pricesUpdated and bandsUpdated counts: for every FX environment, failing ones
included, the response is the success response carrying the equity-phase array
lengths. -/
theorem C4_fx_isolation (cfg : Config) (tables : List HtmlTable) (tbl : HtmlTable)
    (oracle : OracleEnv) (pt bt : Option String)
    (hkey : cfg.privateKey.isSome = true)
    (hloc : locateTable tables = Except.ok tbl)
    (hp : pricePhase oracle.setPricesResult
      (processRows cfg tbl.bodyRows initState).priceAssets.length = Except.ok pt)
    (hb : (bandPhase oracle.hasSetBands oracle.setBandsResult oracle.setBandCall
      (processRows cfg tbl.bodyRows initState).bandAssets.length).2 = Except.ok bt) :
    ∀ fx : FxEnv,
      (runGet cfg (Except.ok tables) oracle fx).success = true ∧
      (runGet cfg (Except.ok tables) oracle fx).pricesUpdated =
        (processRows cfg tbl.bodyRows initState).priceAssets.length ∧
      (runGet cfg (Except.ok tables) oracle fx).bandsUpdated =
        (processRows cfg tbl.bodyRows initState).bandAssets.length := by
  intro fx
  rw [runGet_ok_form cfg tables tbl oracle fx pt bt hkey hloc hp hb]
  exact ⟨rfl, rfl, rfl⟩

/-- Witness for C4: the concrete two-row run with a failing FX fetch. -/
theorem C4_fx_isolation_witness :
    (runGet cfgX (Except.ok [tableX]) oracleOkX fxFail).success = true ∧
    (runGet cfgX (Except.ok [tableX]) oracleOkX fxFail).pricesUpdated = 2 ∧
    (runGet cfgX (Except.ok [tableX]) oracleOkX fxFail).bandsUpdated = 2 := by
  have h := C4_fx_isolation cfgX [tableX] tableX oracleOkX (some "0xP") (some "0xB")
    (by decide) (by decide) (by decide) (by decide) fxFail
  refine ⟨h.1, ?_, ?_⟩
  · rw [h.2.1]
    decide
  · rw [h.2.2]
    decide

/-- C10: whenever the FX side-channel phase completes, the response's
bandTxHash is overwritten with the hash of the FX phase's setBand transaction
for the synthetic asset, replacing the equity band phase's hash; the equity
band hash is reported exactly when the FX phase fails. -/
theorem C10_fx_overwrites_band_hash (cfg : Config) (tables : List HtmlTable) (tbl : HtmlTable)
    (oracle : OracleEnv) (pt bt : Option String)
    (hkey : cfg.privateKey.isSome = true)
    (hloc : locateTable tables = Except.ok tbl)
    (hp : pricePhase oracle.setPricesResult
      (processRows cfg tbl.bodyRows initState).priceAssets.length = Except.ok pt)
    (hb : (bandPhase oracle.hasSetBands oracle.setBandsResult oracle.setBandCall
      (processRows cfg tbl.bodyRows initState).bandAssets.length).2 = Except.ok bt) :
    ∀ fx : FxEnv,
      (∀ out, fxPhase fx cfg = Except.ok out →
        (runGet cfg (Except.ok tables) oracle fx).bandHash = some out.bandHash ∧
        ∃ tx, fx.setBandResult = Except.ok tx ∧ out.bandHash = tx.hash) ∧
      (∀ e, fxPhase fx cfg = Except.error e →
        (runGet cfg (Except.ok tables) oracle fx).bandHash = bt) := by
  intro fx
  rw [runGet_ok_form cfg tables tbl oracle fx pt bt hkey hloc hp hb]
  constructor
  · intro out hout
    refine ⟨?_, fxPhase_ok_bandHash fx cfg out hout⟩
    show (match fxPhase fx cfg with
      | Except.ok out => some out.bandHash
      | Except.error _ => bt) = some out.bandHash
    rw [hout]
  · intro e he
    show (match fxPhase fx cfg with
      | Except.ok out => some out.bandHash
      | Except.error _ => bt) = bt
    rw [he]

/-- Witness for C10: the concrete run with a fully successful FX phase reports
the FX setBand hash; with a failing FX fetch it reports the equity band
hash. -/
theorem C10_fx_overwrites_band_hash_witness :
    (runGet cfgX (Except.ok [tableX]) oracleOkX fxOkX).bandHash = some "0xF4" ∧
    (runGet cfgX (Except.ok [tableX]) oracleOkX fxFail).bandHash = some "0xB" := by
  have h1 := ((C10_fx_overwrites_band_hash cfgX [tableX] tableX oracleOkX
    (some "0xP") (some "0xB") (by decide) (by decide) (by decide) (by decide)) fxOkX).1
    ⟨⟨150000000000, 100⟩, 1700000000, 150, "0xF4"⟩ (by decide)
  have h2 := ((C10_fx_overwrites_band_hash cfgX [tableX] tableX oracleOkX
    (some "0xP") (some "0xB") (by decide) (by decide) (by decide) (by decide)) fxFail).2
    "network down" (by decide)
  exact ⟨h1.1, h2⟩

/-- C6: a body row whose extracted ticker code is empty or not in the fixed
12-ticker watchlist is skipped before any other processing: the scrape state is
completely unchanged, so the row contributes no asset or payload entries
(whatever its price text) and no missing-mapping warning. -/
theorem C6_watchlist_skip (cfg : Config) (st : ScrapeState) (row : Row)
    (h : extractCode row.href = "" ∨ targetList.contains (extractCode row.href) = false) :
    processRow cfg st row = st :=
  processRow_skip cfg st row h

/-- Witness for C6: a concrete off-watchlist row with a parseable price. -/
theorem C6_watchlist_skip_witness : processRow cfgX initState rowOther = initState :=
  C6_watchlist_skip cfgX initState rowOther (Or.inr (by decide))

/-- C5: the table locator scans all tables, fails with the table-not-found
error exactly when no table's header passes the five-column company-and-price
predicate, and otherwise selects the first table passing it. -/
theorem C5_table_locator (tables : List HtmlTable) :
    (locateTable tables = Except.error "Could not locate listings table" ↔
      ∀ t ∈ tables, tableMatches t = false) ∧
    (∀ t, locateTable tables = Except.ok t →
      tableMatches t = true ∧
        ∃ pre post, tables = pre ++ t :: post ∧ ∀ u ∈ pre, tableMatches u = false) :=
  ⟨locateTable_error_iff tables, fun t h => locateTable_ok tables t h⟩

/-- Witness for C5: the concrete table matches and is selected; the empty
document fails with the table-not-found error. -/
theorem C5_table_locator_witness :
    tableMatches tableX = true ∧
      locateTable [] = Except.error "Could not locate listings table" :=
  ⟨((C5_table_locator [tableX]).2 tableX (by decide)).1,
   (C5_table_locator []).1.mpr (by decide)⟩

/-- C7 counterexample: the watchlisted row `rowNeg`, whose price text "-5"
parses to a negative number, produces a price payload whose priceFixed is
-5000000, which is negative; so priceFixed is not nonnegative for every row
whose price text parses. -/
theorem C7_counterexample :
    (processRow cfgX initState rowNeg).pricePayloads.map (fun p => p.priceE6) = [-5000000] ∧
    ((-5000000 : Int) < 0) := by
  exact ⟨by decide, by decide⟩

/-- C7 (amended): every price payload built from a row whose price text parses
to a nonnegative number satisfies priceFixed ≥ 0. -/
theorem C7_priceFixed_nonneg (cfg : Config) (row : Row) (r : JsNum)
    (hp : toNumber (trimChars row.priceTxt) = some r) (hge : 0 ≤ r.val) :
    0 ≤ (mkPricePayload cfg row).priceE6 := by
  unfold mkPricePayload
  dsimp only
  have hrp : rowPrice row = r := by
    unfold rowPrice
    rw [hp]
    rfl
  have hd : ((rowPrice row).mulInt 1000000).d ≠ 0 := by
    show (rowPrice row).d ≠ 0
    rw [hrp]
    exact (toNumber_d_pos _ _ hp).ne'
  rw [jsRound_eq_floor _ hd, val_mulInt, hrp]
  rw [Int.le_floor]
  have hmul : (0 : ℚ) ≤ r.val * ((1000000 : Int) : ℚ) :=
    mul_nonneg hge (by norm_num)
  push_cast
  linarith

/-- Witness for C7 (amended): the concrete MTNN row with price text 250.50. -/
theorem C7_priceFixed_nonneg_witness : 0 ≤ (mkPricePayload cfgX row1).priceE6 :=
  C7_priceFixed_nonneg cfgX row1 ⟨25050, 100⟩ (by decide)
    (by simp only [JsNum.val]; norm_num)

/-- C2: for every invocation, the price payload array and the band payload
array contain exactly one entry per table row that passes the watchlist filter,
the price parse and the asset-mapping lookup (in row order), and each surviving
row's entries carry the fixed-point price round(price times 1e6). -/
theorem C2_payload_arrays (cfg : Config) (rows : List Row) :
    (processRows cfg rows initState).pricePayloads.length =
      (rows.filter (survives cfg)).length ∧
    (processRows cfg rows initState).bandPayloads.length =
      (rows.filter (survives cfg)).length ∧
    (processRows cfg rows initState).pricePayloads =
      (rows.filter (survives cfg)).map (mkPricePayload cfg) ∧
    (processRows cfg rows initState).bandPayloads =
      (rows.filter (survives cfg)).map (mkBandPayload cfg) ∧
    (∀ row, survives cfg row = true →
      (mkPricePayload cfg row).priceE6 = Int.floor ((rowPrice row).val * 1000000 + 1 / 2) ∧
      (mkBandPayload cfg row).midE6 = Int.floor ((rowPrice row).val * 1000000 + 1 / 2)) := by
  obtain ⟨_, e2, _, e4⟩ := processRows_arrays cfg rows initState
  have hround : ∀ row, survives cfg row = true →
      jsRound ((rowPrice row).mulInt 1000000) =
        Int.floor ((rowPrice row).val * 1000000 + 1 / 2) := by
    intro row hsv
    have h2 : (toNumber (trimChars row.priceTxt)).isSome = true := by
      unfold survives at hsv
      dsimp only at hsv
      rw [Bool.and_eq_true, Bool.and_eq_true] at hsv
      exact hsv.1.2
    obtain ⟨r, hr⟩ := Option.isSome_iff_exists.mp h2
    have hd : ((rowPrice row).mulInt 1000000).d ≠ 0 := by
      show (rowPrice row).d ≠ 0
      unfold rowPrice
      rw [hr]
      exact (toNumber_d_pos _ _ hr).ne'
    rw [jsRound_eq_floor _ hd, val_mulInt]
    norm_num
  refine ⟨?_, ?_, ?_, ?_, ?_⟩
  · rw [e2]
    simp [initState]
  · rw [e4]
    simp [initState]
  · rw [e2]
    simp [initState]
  · rw [e4]
    simp [initState]
  · intro row hsv
    exact ⟨hround row hsv, hround row hsv⟩

/-- Witness for C2: two concrete rows of which one survives. -/
theorem C2_payload_arrays_witness :
    (processRows cfgX [row1, rowOther] initState).pricePayloads.length =
      ([row1, rowOther].filter (survives cfgX)).length ∧
    (mkPricePayload cfgX row1).priceE6 =
      Int.floor ((rowPrice row1).val * 1000000 + 1 / 2) :=
  ⟨(C2_payload_arrays cfgX [row1, rowOther]).1,
   ((C2_payload_arrays cfgX [row1, rowOther]).2.2.2.2 row1 (by decide)).1⟩

/-- C3: every price and band payload produced by the equity pipeline in one
invocation carries the invocation's single timestamp snapshot, and that
snapshot prefers the target chain's block time, falling back to the local wall
clock when the chain read fails. -/
theorem C3_single_timestamp (blockRes : Except String (Option BlockInfo)) (wall : Int)
    (cfg : Config) (rows : List Row) (hts : cfg.now = nowSec blockRes wall) :
    (∀ p ∈ (processRows cfg rows initState).pricePayloads, p.ts = nowSec blockRes wall) ∧
    (∀ b ∈ (processRows cfg rows initState).bandPayloads, b.ts = nowSec blockRes wall) ∧
    (∀ blk, blockRes = Except.ok (some blk) → blk.timestamp ≠ 0 →
      nowSec blockRes wall = blk.timestamp) ∧
    (∀ e, blockRes = Except.error e → nowSec blockRes wall = wall) := by
  obtain ⟨_, e2, _, e4⟩ := processRows_arrays cfg rows initState
  refine ⟨?_, ?_, ?_, ?_⟩
  · intro p hp
    rw [e2] at hp
    simp only [initState, List.nil_append] at hp
    obtain ⟨row, _, hrow⟩ := List.mem_map.mp hp
    rw [← hrow]
    show cfg.now = nowSec blockRes wall
    exact hts
  · intro b hb
    rw [e4] at hb
    simp only [initState, List.nil_append] at hb
    obtain ⟨row, _, hrow⟩ := List.mem_map.mp hb
    rw [← hrow]
    show cfg.now = nowSec blockRes wall
    exact hts
  · intro blk hb hne
    rw [hb]
    show (if blk.timestamp ≠ 0 then blk.timestamp else wall) = blk.timestamp
    rw [if_pos hne]
  · intro e he
    rw [he]
    rfl

/-- Witness for C3: a concrete chain read returning block time 1234 and a
concrete surviving row stamped with it. -/
theorem C3_single_timestamp_witness :
    nowSec blockResX 999 = 1234 ∧
    ((processRows cfgC3 [row1] initState).pricePayloads.headD dfltPricePayload).ts = 1234 := by
  have h := C3_single_timestamp blockResX 999 cfgC3 [row1] (by decide)
  have hns : nowSec blockResX 999 = 1234 := h.2.2.1 ⟨1234⟩ rfl (by decide)
  refine ⟨hns, ?_⟩
  have hm : (processRows cfgC3 [row1] initState).pricePayloads.headD dfltPricePayload ∈
      (processRows cfgC3 [row1] initState).pricePayloads := by decide
  rw [h.1 _ hm]
  exact hns

end OracleCron
